import Mathlib

/-!
Verification of the ws-tool reconciliation layer against its design
specification. The Rust sources are shallowly embedded:

* `src/commands/utils_file.rs` — the cross-process reference counter
  (`change_lock_file`, `ensure_delete`);
* `src/core/utils.rs` and `src/core/context.rs` — the `Revision` type and
  `check_review_state`;
* `src/commands/utils.rs` — `is_workspace_dirty`;
* `src/commands/utils_commit.rs` — the commit orchestration
  (`svn_add_and_delete`, `get_conflicted_files`, `resolve_conflicts`,
  `commit_with_conflict_resolution`);
* `src/commands/workspace.rs` — the prune pipeline of `force_delete`.

External collaborators (the svn binary, the filesystem, the interactive
prompt) are modelled as oracles: a run is parameterised by the outcome of
each fallible call, and where the embedded function interacts with them the
run records the call in a trace, so that claims about which calls happen on
which paths are statements about the trace.
-/

namespace WsTool

/-! ## Reference counter (`src/commands/utils_file.rs`) -/

/-- The `ChangeLockType` enum of `utils_file.rs`: `Add` increments, `Sub`
decrements, `Delete` is the delete-if-zero query used by `ensure_delete`. -/
inductive ChangeLockType where
  | Add
  | Sub
  | Delete
deriving DecidableEq, Repr

/-- The `u64` modulus: the counter arithmetic of `change_lock_file` is `u64`
arithmetic, modelled over the integers with the wrap written out. -/
def u64Mod : Int := 2 ^ 64

/-- The read `content.trim().parse::<u64>().unwrap_or(0)` in
`change_lock_file`: unparsable or missing content is treated as 0, and a
numeral beyond `u64::MAX` fails the `u64` parse and so also reads as 0. The
counter is a `u64` in the source; values are modelled as integers so that the
range invariant is provable rather than a fact of the type. -/
def parseLockContent (content : String) : Int :=
  match content.trim.toNat? with
  | some n => if (n : Int) < u64Mod then (n : Int) else 0
  | none => 0

/-- The `match lock_type` block of `change_lock_file`: the new value written
back for one adjustment of the stored value `current_val`. The `Add` arm is
`current_val + 1` on `u64`, which wraps modulo `2 ^ 64` in release builds
(a debug build would panic at the overflow instead); the wrap is written
out. -/
def changeLockValue (current_val : Int) : ChangeLockType → Int
  | ChangeLockType.Add => (current_val + 1) % u64Mod
  | ChangeLockType.Sub => if current_val > 0 then current_val - 1 else 0
  | ChangeLockType.Delete => if current_val = 0 then 0 else current_val

/-- The stored counter after a sequence of `change_lock_file` calls starting
from content that reads as 0: each call reads back the value the previous
call wrote. -/
def lockCounterAfter (ops : List ChangeLockType) : Int :=
  ops.foldl changeLockValue 0

/-- Number of increments minus number of decrements of a sequence. -/
def netSum (ops : List ChangeLockType) : Int :=
  (ops.count ChangeLockType.Add : Int) - (ops.count ChangeLockType.Sub : Int)

/-- The guard of `ensure_delete`: the call
`change_lock_file(path, Delete)? > 0` refuses the teardown (`Ok(false)`),
anything else permits it (`Ok(true)`). -/
def ensureDeleteGate (v : Int) : Bool :=
  if changeLockValue v ChangeLockType.Delete > 0 then false else true

/-- Whether the delete-if-zero query permits deletion after `ops` have been
applied from 0. -/
def deleteIfZeroSucceeds (ops : List ChangeLockType) : Bool :=
  ensureDeleteGate (lockCounterAfter ops)

/-- The contribution of one operation to the net sum. -/
def opDelta : ChangeLockType → Int
  | ChangeLockType.Add => 1
  | ChangeLockType.Sub => -1
  | ChangeLockType.Delete => 0

theorem netSum_nil : netSum [] = 0 := rfl

theorem netSum_cons (t : ChangeLockType) (ops : List ChangeLockType) :
    netSum (t :: ops) = opDelta t + netSum ops := by
  cases t <;> simp [netSum, opDelta, List.count_cons] <;> ring

theorem changeLockValue_delete (v : Int) :
    changeLockValue v ChangeLockType.Delete = v := by
  simp only [changeLockValue]
  split <;> omega

theorem netSum_singleton (t : ChangeLockType) : netSum [t] = opDelta t := by
  cases t <;> decide

theorem u64Mod_pos : 0 < u64Mod := by norm_num [u64Mod]

/-- One adjustment keeps the stored value inside the `u64` range: the `Add`
wrap stays inside by the modulus, the floored `Sub` and the `Delete` query
never increase the value. -/
theorem changeLockValue_bounds (v : Int) (hv : 0 ≤ v) (hvlt : v < u64Mod)
    (t : ChangeLockType) :
    0 ≤ changeLockValue v t ∧ changeLockValue v t < u64Mod := by
  have hM := u64Mod_pos
  cases t with
  | Add =>
      simp only [changeLockValue]
      exact ⟨Int.emod_nonneg _ (ne_of_gt hM), Int.emod_lt_of_pos _ hM⟩
  | Sub => simp only [changeLockValue]; split <;> omega
  | Delete => simp only [changeLockValue]; split <;> omega

theorem foldl_changeLockValue_bounds (ops : List ChangeLockType) (v : Int)
    (hv : 0 ≤ v) (hvlt : v < u64Mod) :
    0 ≤ ops.foldl changeLockValue v ∧ ops.foldl changeLockValue v < u64Mod := by
  induction ops generalizing v with
  | nil => exact ⟨hv, hvlt⟩
  | cons t rest ih =>
      obtain ⟨h1, h2⟩ := changeLockValue_bounds v hv hvlt t
      exact ih _ h1 h2

theorem lockCounterAfter_nonneg (ops : List ChangeLockType) :
    0 ≤ lockCounterAfter ops :=
  (foldl_changeLockValue_bounds ops 0 le_rfl u64Mod_pos).1

theorem lockCounterAfter_lt (ops : List ChangeLockType) :
    lockCounterAfter ops < u64Mod :=
  (foldl_changeLockValue_bounds ops 0 le_rfl u64Mod_pos).2

/-- When every prefix of `ops` has a net sum that keeps `v` inside the `u64`
range, the fold tracks the net sum exactly: no decrement is ever floored and
no increment ever wraps. -/
theorem foldl_changeLockValue_eq_netSum (ops : List ChangeLockType) (v : Int)
    (hv : 0 ≤ v)
    (h : ∀ p ∈ ops.inits, 0 ≤ v + netSum p ∧ v + netSum p < u64Mod) :
    ops.foldl changeLockValue v = v + netSum ops := by
  induction ops generalizing v with
  | nil => simp [netSum]
  | cons t rest ih =>
      have hsingle : 0 ≤ v + netSum [t] ∧ v + netSum [t] < u64Mod := by
        refine h [t] ?_
        rw [List.mem_inits]
        exact ⟨rest, rfl⟩
      rw [netSum_singleton] at hsingle
      have hstep : changeLockValue v t = v + opDelta t := by
        cases t with
        | Add =>
            simp only [opDelta] at hsingle
            simp only [changeLockValue, opDelta]
            exact Int.emod_eq_of_lt (by omega) (by omega)
        | Sub =>
            simp only [opDelta] at hsingle
            simp only [changeLockValue, opDelta]
            split <;> omega
        | Delete => simp [changeLockValue_delete, opDelta]
      have hv2 : 0 ≤ changeLockValue v t := by
        rw [hstep]
        have h0 : 0 ≤ v + opDelta t := hsingle.1
        omega
      have hrest : ∀ p ∈ rest.inits,
          0 ≤ changeLockValue v t + netSum p ∧
            changeLockValue v t + netSum p < u64Mod := by
        intro p hp
        have hmem : (t :: p) ∈ (t :: rest).inits := by
          rw [List.mem_inits] at hp ⊢
          rcases hp with ⟨u, hu⟩
          exact ⟨u, by rw [List.cons_append, hu]⟩
        have hq := h (t :: p) hmem
        rw [netSum_cons] at hq
        rw [hstep]
        omega
      rw [List.foldl_cons, ih _ hv2 hrest, hstep, netSum_cons]
      ring

theorem lockCounterAfter_eq_netSum (ops : List ChangeLockType)
    (h : ∀ p ∈ ops.inits, 0 ≤ netSum p ∧ netSum p < u64Mod) :
    lockCounterAfter ops = netSum ops := by
  have := foldl_changeLockValue_eq_netSum ops 0 le_rfl (by simpa using h)
  simpa [lockCounterAfter] using this

/-- C1 is refuted as stated: after the sequence decrement-then-increment the
net sum of increments minus decrements is 0, yet the stored counter is 1
(the decrement at 0 was floored), so the delete-if-zero query refuses the
deletion where the claim requires it to succeed. -/
theorem c1_delete_iff_netsum_refuted :
    netSum [ChangeLockType.Sub, ChangeLockType.Add] = 0 ∧
    lockCounterAfter [ChangeLockType.Sub, ChangeLockType.Add] = 1 ∧
    deleteIfZeroSucceeds [ChangeLockType.Sub, ChangeLockType.Add] = false := by
  refine ⟨by decide, by decide, by decide⟩

/-- C1 (amended): starting from 0 the counter never leaves the `u64` range
(never negative, always below `2 ^ 64`); the delete-if-zero query leaves the
stored value unchanged and succeeds exactly when the stored value is 0;
unparsable content reads as 0; and for every sequence in which no decrement
is applied while the counter is 0 and no increment while it is the maximum —
that is, every prefix net sum lies inside the `u64` range — the stored value
equals the net sum, so the query succeeds if and only if the net sum is
exactly 0 at query time. -/
theorem c1_counter_spec :
    (∀ ops : List ChangeLockType,
      0 ≤ lockCounterAfter ops ∧ lockCounterAfter ops < u64Mod) ∧
    (∀ v : Int, changeLockValue v ChangeLockType.Delete = v) ∧
    (∀ s : String, s.trim.toNat? = none → parseLockContent s = 0) ∧
    (∀ ops : List ChangeLockType,
      deleteIfZeroSucceeds ops = true ↔ lockCounterAfter ops = 0) ∧
    (∀ ops : List ChangeLockType,
      (∀ p ∈ ops.inits, 0 ≤ netSum p ∧ netSum p < u64Mod) →
      (deleteIfZeroSucceeds ops = true ↔ netSum ops = 0)) := by
  have hgate : ∀ ops : List ChangeLockType,
      deleteIfZeroSucceeds ops = true ↔ lockCounterAfter ops = 0 := by
    intro ops
    have hnn := lockCounterAfter_nonneg ops
    simp only [deleteIfZeroSucceeds, ensureDeleteGate, changeLockValue_delete]
    by_cases hpos : lockCounterAfter ops > 0
    · rw [if_pos hpos]
      simp only [Bool.false_eq_true, false_iff]
      omega
    · rw [if_neg hpos]
      simp only [true_iff]
      omega
  refine ⟨fun ops => ⟨lockCounterAfter_nonneg ops, lockCounterAfter_lt ops⟩,
    changeLockValue_delete, ?_, hgate, ?_⟩
  · intro s hs
    simp [parseLockContent, hs]
  · intro ops h
    rw [hgate ops, lockCounterAfter_eq_netSum ops h]

/-- Witness for the amended C1 at the concrete sequence increment then
decrement: every prefix net sum stays inside the `u64` range and the
delete-if-zero query succeeds, with net sum 0. -/
theorem c1_counter_spec_witness :
    deleteIfZeroSucceeds [ChangeLockType.Add, ChangeLockType.Sub] = true :=
  (c1_counter_spec.2.2.2.2 [ChangeLockType.Add, ChangeLockType.Sub]
    (by decide)).mpr (by decide)

/-! ### Lock discipline of `change_lock_file` (claim C8)

The run is parameterised by which of the fallible calls succeed. The trace
records the lock-relevant events in program order. `closeHandle` is the drop
of the local `file`: Rust drops it on every return path of
`change_lock_file`, and closing the handle makes the OS release any region
lock still held through it, so a `LockFileEx` lock never survives the
function. -/

/-- Outcome of each fallible call inside one run of `change_lock_file`, in
program order: `LockFileEx`, `read_to_string`, `seek`, `set_len`, `write`,
`UnlockFileEx`. -/
structure LockRunOutcome where
  lockOk : Bool
  readOk : Bool
  seekOk : Bool
  setLenOk : Bool
  writeOk : Bool
  unlockOk : Bool
deriving DecidableEq, Repr

/-- Lock-relevant events of one run. -/
inductive LockEvent where
  | acquire
  | unlockCall
  | closeHandle
deriving DecidableEq, Repr

/-- Whether the exclusive lock is still held after the events have
happened. -/
def lockHeldAfter (events : List LockEvent) : Bool :=
  events.foldl
    (fun _held e =>
      match e with
      | LockEvent.acquire => true
      | LockEvent.unlockCall => false
      | LockEvent.closeHandle => false)
    false

/-- One run of `change_lock_file`, path by path. `get_lock_file` opens the
counter file and calls `LockFileEx` (on failure the function returns before
the lock is held); read, seek, truncate and write each propagate failure with
the question-mark operator; `release_lock_file` calls `UnlockFileEx` and
propagates its failure too; on every return path the `file` local is dropped,
closing the handle. The result is `none` on error, `some new_val` on
success. -/
def change_lock_file (o : LockRunOutcome) (content : String)
    (ty : ChangeLockType) : List LockEvent × Option Int :=
  if o.lockOk = false then
    ([LockEvent.closeHandle], none)
  else if o.readOk = false then
    ([LockEvent.acquire, LockEvent.closeHandle], none)
  else if o.seekOk = false then
    ([LockEvent.acquire, LockEvent.closeHandle], none)
  else if o.setLenOk = false then
    ([LockEvent.acquire, LockEvent.closeHandle], none)
  else if o.writeOk = false then
    ([LockEvent.acquire, LockEvent.closeHandle], none)
  else if o.unlockOk = false then
    ([LockEvent.acquire, LockEvent.closeHandle], none)
  else
    ([LockEvent.acquire, LockEvent.unlockCall, LockEvent.closeHandle],
      some (changeLockValue (parseLockContent content) ty))

/-- C8: `change_lock_file` never returns while still holding the exclusive
lock. On every path — the explicit `UnlockFileEx` on the success path, the
handle close performed by the drop of the `File` on every error path — the
lock is no longer held once the function has returned. -/
theorem c8_lock_always_released (o : LockRunOutcome) (content : String)
    (ty : ChangeLockType) :
    lockHeldAfter (change_lock_file o content ty).1 = false := by
  rcases o with ⟨l, r, s, t, w, u⟩
  cases l <;> cases r <;> cases s <;> cases t <;> cases w <;> cases u <;> rfl

/-! ## Revision ordering (`src/core/utils.rs`, `src/core/context.rs`) -/

/-- The `Revision` enum of `core/utils.rs` with its variants in declaration
order: `Head` first, then `Number(u64)`. -/
inductive Revision where
  | Head
  | Number (n : Nat)
deriving DecidableEq, Repr

/-- The strict comparison that `#[derive(PartialOrd)]` generates for
`Revision`: variants compare by declaration order — so `Head`, declared
first, is strictly below every `Number` — and numbers compare by value. -/
def Revision.lt : Revision → Revision → Bool
  | Revision.Head, Revision.Head => false
  | Revision.Head, Revision.Number _ => true
  | Revision.Number _, Revision.Head => false
  | Revision.Number a, Revision.Number b => decide (a < b)

/-- The `check_review_state` of `core/context.rs`:
`current_revision < latest_revision` under the derived order. -/
def check_review_state (current latest : Revision) : Bool :=
  Revision.lt current latest

/-- C2 (code bug): the derived order puts the symbolic latest marker below
every numeric revision, so `Number 5 < Head` is false (indeed
`Head < Number n` holds for every `n`) and `check_review_state` returns false
when the latest revision is the symbolic marker — where the specification
requires the marker to compare strictly greater and the state to be true. -/
theorem c2_head_compares_least :
    Revision.lt (Revision.Number 5) Revision.Head = false ∧
    check_review_state (Revision.Number 5) Revision.Head = false ∧
    (∀ n : Nat, Revision.lt Revision.Head (Revision.Number n) = true) := by
  exact ⟨rfl, rfl, fun n => rfl⟩

/-! ## Workspace status classification (`src/commands/utils.rs`) and
staging (`src/commands/utils_commit.rs`)

Both `is_workspace_dirty` and `svn_add_and_delete` parse the status XML into
entries, compile the gitignore matcher and walk unversioned directories with
`build_folder_walker`. The world of one pass bundles those three
collaborators: the parsed entries, the matcher, and the walker output per
directory path. `build_folder_walker` wraps `ignore::WalkBuilder`, whose
iterator yields the walked root itself as its first entry and then the
descendants it does not filter out. -/

/-- One parsed entry of the status XML: the `wc-status` `item` attribute, the
`path` attribute, and whether that path is a directory on disk. -/
structure StatusEntry where
  item : String
  path : String
  isDir : Bool
deriving DecidableEq, Repr

/-- The collaborators of one classification or staging pass:
`ign path isDir` is `gitignore.matched(path, is_dir).is_ignore()`, and
`walk p` lists the `(path, is_dir)` pairs `build_folder_walker(p)` yields, in
yield order. -/
structure StatusWorld where
  entries : List StatusEntry
  ign : String → Bool → Bool
  walk : String → List (String × Bool)

/-- The per-entry decision inside the status loop of `is_workspace_dirty`:
an unversioned or ignored entry is checked against the ignore rules — when
unmatched, a file is dirty and a directory is dirty exactly when its walker
yields a path the rules do not match; a matched entry is passed over with no
descendant check; `normal`, `none` and `external` are skipped; every other
item is dirty. -/
def entryDirty (w : StatusWorld) (e : StatusEntry) : Bool :=
  if e.item = "unversioned" || e.item = "ignored" then
    if w.ign e.path e.isDir then false
    else if e.isDir then
      (w.walk e.path).any fun s => !(w.ign s.1 s.2)
    else true
  else if e.item = "normal" || e.item = "none" || e.item = "external" then
    false
  else true

/-- The `is_workspace_dirty` of `commands/utils.rs`: the loop returns true at
the first dirty entry and false once every entry has been passed over. -/
def is_workspace_dirty (w : StatusWorld) : Bool :=
  w.entries.any (entryDirty w)

/-- A status world with a single unversioned directory entry `top` that the
ignore rules match, containing the descendant file `top/f.txt` that no rule
matches; the walker yields the root first, then the descendant. -/
def c3World : StatusWorld where
  entries := [⟨"unversioned", "top", true⟩]
  ign := fun p _ => decide (p = "top")
  walk := fun p =>
    if p = "top" then [("top", true), ("top/f.txt", false)] else []

/-- C3 is refuted as stated: the ignore rules match the unversioned directory
`top` but not its descendant file `top/f.txt`, yet `is_workspace_dirty`
returns false — the recursive descendant verification runs only for
unmatched unversioned directories, so the non-matching descendant does not
flip the result to true. -/
theorem c3_matched_dir_descendant_refuted :
    c3World.ign "top" true = true ∧
    c3World.walk "top" = [("top", true), ("top/f.txt", false)] ∧
    c3World.ign "top/f.txt" false = false ∧
    is_workspace_dirty c3World = false := by
  refine ⟨by decide, by decide, by decide, by decide⟩

/-- C3 (amended): an unversioned (or ignored) entry matched by an ignore rule
is treated as clean with no descendant verification; the recursive walk is
performed only for unmatched unversioned directories, whose dirtiness is
exactly whether the walker yields some path the ignore rules do not match;
and a pass in which every entry is clean reports the workspace clean. -/
theorem c3_ignore_matching_spec :
    (∀ (w : StatusWorld) (e : StatusEntry),
      (e.item = "unversioned" ∨ e.item = "ignored") →
      w.ign e.path e.isDir = true → entryDirty w e = false) ∧
    (∀ (w : StatusWorld) (e : StatusEntry),
      e.item = "unversioned" → w.ign e.path e.isDir = false →
      e.isDir = true →
      entryDirty w e = ((w.walk e.path).any fun s => !(w.ign s.1 s.2))) ∧
    (∀ w : StatusWorld, (∀ e ∈ w.entries, entryDirty w e = false) →
      is_workspace_dirty w = false) := by
  refine ⟨?_, ?_, ?_⟩
  · intro w e hitem hmatch
    rcases hitem with h | h <;> simp [entryDirty, h, hmatch]
  · intro w e hitem hmatch hdir
    rw [hdir] at hmatch
    simp [entryDirty, hitem, hmatch, hdir]
  · intro w h
    simpa [is_workspace_dirty, List.any_eq_false] using h

/-- Witness for the amended C3: the matched unversioned directory entry of
`c3World` is clean even though its walker yields a non-matching file. -/
theorem c3_ignore_matching_spec_witness :
    entryDirty c3World ⟨"unversioned", "top", true⟩ = false :=
  c3_ignore_matching_spec.1 c3World ⟨"unversioned", "top", true⟩
    (Or.inl rfl) (by decide)

/-- The additions batch `adds` computed by `svn_add_and_delete`: entries with
item `unversioned` or `ignored` are collected in order; each one not matched
by the ignore rules contributes itself when a file, and every path its walker
yields when a directory. -/
def stagedAdds (w : StatusWorld) : List String :=
  (w.entries.filter fun e =>
      e.item = "unversioned" || e.item = "ignored").foldl
    (fun adds e =>
      if w.ign e.path e.isDir then adds
      else if e.isDir then adds ++ (w.walk e.path).map Prod.fst
      else adds ++ [e.path])
    []

/-- The removals batch `dels` of `svn_add_and_delete`: the paths of the
`missing` entries. -/
def stagedDels (w : StatusWorld) : List String :=
  (w.entries.filter fun e => e.item = "missing").map fun e => e.path

/-- A staging world with one unversioned directory `d`, matched by no ignore
rule, holding a single file `d/a.c`; `build_folder_walker` yields the walked
root itself first. -/
def c9World : StatusWorld where
  entries := [⟨"unversioned", "d", true⟩]
  ign := fun _ _ => false
  walk := fun p => if p = "d" then [("d", true), ("d/a.c", false)] else []

/-- C9 (code bug): `svn_add_and_delete` pushes every path the walker yields,
and the walker yields the walked directory itself first, so the unversioned
directory `d` is scheduled for addition as the first element of the batch —
against the contract (and the comment in the source) that the directory
entry itself is never explicitly added. -/
theorem c9_directory_itself_added :
    stagedAdds c9World = ["d", "d/a.c"] ∧ "d" ∈ stagedAdds c9World := by
  refine ⟨by decide, by decide⟩

/-! ## Conflict enumeration and interactive resolution
(`src/commands/utils_commit.rs`, types from `src/commands/models.rs`) -/

/-- The `ConflictKind` enum of `commands/models.rs`. -/
inductive ConflictKind where
  | Standard
  | TreeConflict
  | Obstructed
  | Incomplete
deriving DecidableEq, Repr

/-- The `ConflictItem` record of `commands/models.rs`. -/
structure ConflictItem where
  path : String
  kind : ConflictKind
deriving DecidableEq, Repr

/-- The attributes `get_conflicted_files` reads off one status entry:
`item`, `props` and `tree-conflicted` (each defaulting to the given strings
when absent, as in the source). -/
structure RawStatus where
  path : String
  item : String
  props : String
  treeConflicted : String
deriving DecidableEq, Repr

/-- The per-entry classification of `get_conflicted_files`: the first
matching test wins (each arm ends in `continue`), and an entry matching none
of them contributes nothing. -/
def classifyConflict (e : RawStatus) : Option ConflictKind :=
  if e.item = "incomplete" then some ConflictKind.Incomplete
  else if e.treeConflicted = "true" then some ConflictKind.TreeConflict
  else if e.item = "obstructed" then some ConflictKind.Obstructed
  else if e.item = "conflicted" || e.props = "conflicted" then
    some ConflictKind.Standard
  else none

/-- The `get_conflicted_files` loop over the parsed entries. -/
def get_conflicted_files (entries : List RawStatus) : List ConflictItem :=
  entries.filterMap fun e =>
    (classifyConflict e).map fun k => ConflictItem.mk e.path k

/-- C10: classification precedence. An `incomplete` item is `Incomplete` even
when tree-conflicted; a tree-conflicted entry is `TreeConflict` even when its
item is `obstructed` or `conflicted`; `obstructed` beats the content or
property conflict test; an entry with a property conflict but none of the
earlier marks is `Standard`; an entry with none of the marks contributes no
`ConflictItem`; and each entry contributes at most one item, so the output is
never longer than the input. -/
theorem c10_conflict_precedence :
    (∀ e : RawStatus, e.item = "incomplete" →
      classifyConflict e = some ConflictKind.Incomplete) ∧
    (∀ e : RawStatus, e.item ≠ "incomplete" → e.treeConflicted = "true" →
      classifyConflict e = some ConflictKind.TreeConflict) ∧
    (∀ e : RawStatus, e.item = "obstructed" → e.treeConflicted ≠ "true" →
      classifyConflict e = some ConflictKind.Obstructed) ∧
    (∀ e : RawStatus, e.item ≠ "incomplete" → e.treeConflicted ≠ "true" →
      e.item ≠ "obstructed" → (e.item = "conflicted" ∨ e.props = "conflicted") →
      classifyConflict e = some ConflictKind.Standard) ∧
    (∀ e : RawStatus, e.item ≠ "incomplete" → e.treeConflicted ≠ "true" →
      e.item ≠ "obstructed" → e.item ≠ "conflicted" → e.props ≠ "conflicted" →
      classifyConflict e = none) ∧
    (∀ entries : List RawStatus,
      (get_conflicted_files entries).length ≤ entries.length) := by
  refine ⟨?_, ?_, ?_, ?_, ?_, ?_⟩
  · intro e h
    simp [classifyConflict, h]
  · intro e h1 h2
    simp [classifyConflict, h1, h2]
  · intro e h1 h2
    have hne : e.item ≠ "incomplete" := by rw [h1]; decide
    simp [classifyConflict, h1, h2, hne]
  · intro e h1 h2 h3 h4
    rcases h4 with h4 | h4 <;> simp [classifyConflict, h1, h2, h3, h4]
  · intro e h1 h2 h3 h4 h5
    simp [classifyConflict, h1, h2, h3, h4, h5]
  · intro entries
    calc (get_conflicted_files entries).length
        ≤ entries.length := List.length_filterMap_le _ _

/-- Witness for C10 at concrete entries: an incomplete tree-conflicted entry
classifies as `Incomplete`, and a tree-conflicted obstructed entry as
`TreeConflict`. -/
theorem c10_conflict_precedence_witness :
    classifyConflict ⟨"a", "incomplete", "none", "true"⟩ =
      some ConflictKind.Incomplete ∧
    classifyConflict ⟨"b", "obstructed", "none", "true"⟩ =
      some ConflictKind.TreeConflict :=
  ⟨c10_conflict_precedence.1 ⟨"a", "incomplete", "none", "true"⟩ rfl,
    c10_conflict_precedence.2.1 ⟨"b", "obstructed", "none", "true"⟩
      (by decide) rfl⟩

/-! ### Interactive resolution (`resolve_single_conflict`, `resolve_conflicts`)

`resolve_single_conflict` first asks the selector question — a prompt with
exactly the two choices keep-mine and discard-mine — and only then dispatches
on the conflict kind; an `Incomplete` item therefore is prompted like the
others and then aborts with a `Validation` error. The run records the prompt
and every backend or filesystem call, in order; the selector answer for the
i-th item is `sel i`. Backend calls themselves are modelled as succeeding,
which is the interesting path for the abort claim: a failing backend call
would only cut the trace shorter. -/

/-- Events of a resolution run: the interactive prompt (with its number of
choices and the path asked about) and the backend or filesystem calls of
`resolve_single_conflict`. -/
inductive ResolveEvent where
  | prompt (nChoices : Nat) (path : String)
  | svnResolve (accept : String) (path : String)
  | svnRevert (path : String)
  | svnUpdate (path : String)
  | svnAddForce (path : String)
  | svnDeleteKeepLocal (path : String)
  | fsRemove (path : String)
deriving DecidableEq, Repr

/-- The errors `resolve_conflicts` can surface, named by the `AppError`
variant the source builds. -/
inductive ResolveErr where
  | validation (msg : String)
deriving DecidableEq, Repr

/-- The message of the incomplete-state abort in `resolve_single_conflict`
(the source wraps svn cleanup in single quotation marks, elided here). -/
def incompleteMsg : String :=
  "Workspace is in an incomplete state. Please run svn cleanup and try again."

/-- One `resolve_single_conflict` call: the prompt always comes first and has
exactly two choices; then the kind dispatch issues the calls of the chosen
branch, or returns the `Validation` error for `Incomplete`. `sel = 0` is
keep-mine, `sel = 1` discard-mine. -/
def resolve_single_conflict (sel : Nat) (item : ConflictItem) :
    List ResolveEvent × Option ResolveErr :=
  let pr := ResolveEvent.prompt 2 item.path
  match item.kind with
  | ConflictKind.Standard =>
      ([pr, ResolveEvent.svnResolve
          (if sel = 0 then "mine-full" else "theirs-full") item.path], none)
  | ConflictKind.TreeConflict =>
      if sel = 1 then
        ([pr, ResolveEvent.svnResolve "working" item.path,
          ResolveEvent.svnRevert item.path,
          ResolveEvent.svnUpdate item.path], none)
      else
        ([pr, ResolveEvent.svnResolve "working" item.path,
          ResolveEvent.svnAddForce item.path], none)
  | ConflictKind.Obstructed =>
      if sel = 1 then
        ([pr, ResolveEvent.fsRemove item.path,
          ResolveEvent.svnRevert item.path,
          ResolveEvent.svnUpdate item.path], none)
      else
        ([pr, ResolveEvent.svnDeleteKeepLocal item.path,
          ResolveEvent.svnAddForce item.path], none)
  | ConflictKind.Incomplete =>
      ([pr], some (ResolveErr.validation incompleteMsg))

/-- The loop of `resolve_conflicts` over the enumerated items, in discovery
order, from item index `idx`: each item is resolved in turn, and the first
error stops the loop. -/
def resolveLoop (sel : Nat → Nat) : Nat → List ConflictItem →
    List ResolveEvent × Option ResolveErr
  | _, [] => ([], none)
  | idx, item :: rest =>
      match resolve_single_conflict (sel idx) item with
      | (ev, some e) => (ev, some e)
      | (ev, none) =>
          let r := resolveLoop sel (idx + 1) rest
          (ev ++ r.1, r.2)

/-- The `resolve_conflicts` of `utils_commit.rs` on an already-enumerated
conflict list. -/
def resolve_conflicts (sel : Nat → Nat) (items : List ConflictItem) :
    List ResolveEvent × Option ResolveErr :=
  resolveLoop sel 0 items

/-- C5 is refuted as stated: for a single `Incomplete` item the run does
present the two-choice prompt (the selector runs before the kind dispatch),
and the abort error is the ordinary `Validation` variant, distinguished only
by its message. -/
theorem c5_incomplete_prompted_refuted :
    (resolve_conflicts (fun _ => 0) [⟨"p", ConflictKind.Incomplete⟩]).1 =
      [ResolveEvent.prompt 2 "p"] ∧
    (resolve_conflicts (fun _ => 0) [⟨"p", ConflictKind.Incomplete⟩]).2 =
      some (ResolveErr.validation incompleteMsg) := by
  refine ⟨rfl, rfl⟩

/-- C5 (amended): every enumerated item, the `Incomplete` kind included, is
presented with exactly two choices; when the loop reaches an `Incomplete`
item it prompts, issues no backend or filesystem call for it, and aborts the
whole run with the `Validation` incomplete-state error before any further
item is processed; and the only error a run can surface is that abort. -/
theorem c5_incomplete_abort_spec :
    (∀ (sel : Nat → Nat) (idx : Nat) (items : List ConflictItem)
      (n : Nat) (path : String),
      ResolveEvent.prompt n path ∈ (resolveLoop sel idx items).1 → n = 2) ∧
    (∀ (sel : Nat → Nat) (idx : Nat) (p : String)
      (rest : List ConflictItem),
      resolveLoop sel idx (⟨p, ConflictKind.Incomplete⟩ :: rest) =
        ([ResolveEvent.prompt 2 p],
          some (ResolveErr.validation incompleteMsg))) ∧
    (∀ (sel : Nat → Nat) (idx : Nat) (items : List ConflictItem),
      (resolveLoop sel idx items).2 = none ∨
      (resolveLoop sel idx items).2 =
        some (ResolveErr.validation incompleteMsg)) := by
  have hsingle : ∀ (s : Nat) (item : ConflictItem),
      (∀ n path, ResolveEvent.prompt n path ∈
        (resolve_single_conflict s item).1 → n = 2) ∧
      ((resolve_single_conflict s item).2 = none ∨
        (resolve_single_conflict s item).2 =
          some (ResolveErr.validation incompleteMsg)) := by
    intro s item
    rcases item with ⟨p, k⟩
    cases k <;> by_cases hs : s = 1 <;>
      simp_all [resolve_single_conflict]
  refine ⟨?_, ?_, ?_⟩
  · intro sel idx items
    induction items generalizing idx with
    | nil => intro n path h; simp [resolveLoop] at h
    | cons item rest ih =>
        intro n path h
        rcases hmatch : resolve_single_conflict (sel idx) item with ⟨ev, err⟩
        rcases err with _ | e
        · rw [resolveLoop, hmatch] at h
          simp only [List.mem_append] at h
          rcases h with h | h
          · exact (hsingle (sel idx) item).1 n path (by rw [hmatch]; exact h)
          · exact ih (idx + 1) n path h
        · rw [resolveLoop, hmatch] at h
          exact (hsingle (sel idx) item).1 n path (by rw [hmatch]; exact h)
  · intro sel idx p rest
    rw [resolveLoop]
    rfl
  · intro sel idx items
    induction items generalizing idx with
    | nil => left; rfl
    | cons item rest ih =>
        rcases hmatch : resolve_single_conflict (sel idx) item with ⟨ev, err⟩
        rcases err with _ | e
        · rw [resolveLoop, hmatch]
          exact ih (idx + 1)
        · rw [resolveLoop, hmatch]
          rcases (hsingle (sel idx) item).2 with h | h
          · rw [hmatch] at h; simp at h
          · rw [hmatch] at h
            simp only [Option.some.injEq] at h
            simp [h]

/-- Witness for the amended C5: an `Incomplete` item hit in the middle of the
enumeration prompts once with two choices and aborts the run with the
incomplete-state error, leaving the rest of the items unprocessed. -/
theorem c5_incomplete_abort_spec_witness :
    resolveLoop (fun _ => 0) 3
      [⟨"q", ConflictKind.Incomplete⟩, ⟨"r", ConflictKind.Standard⟩] =
      ([ResolveEvent.prompt 2 "q"],
        some (ResolveErr.validation incompleteMsg)) :=
  c5_incomplete_abort_spec.2.1 (fun _ => 0) 3 "q"
    [⟨"r", ConflictKind.Standard⟩]

/-! ## Commit orchestration (`commit_with_conflict_resolution`) -/

/-- The `CommitResult` enum of `commands/models.rs`. -/
inductive CommitResult where
  | Success
  | NoChanges
deriving DecidableEq, Repr

/-- The test `commit_output.trim().is_empty()` of the source: the trimmed
string is empty exactly when every character of the output is whitespace. -/
def trimIsEmpty (s : String) : Bool :=
  s.toList.all fun c => c.isWhitespace

/-- The calls of one `commit_with_conflict_resolution` run at the granularity
of its own body: `stagePhase` is the whole `svn_add_and_delete` call (its
internal backend calls are the sync, the status query and the `svn add` and
`svn delete` batches on `stagedAdds` and `stagedDels`, never a commit or a
cleanup); `update_and_resolve_conflicts` contributes one `svnUpdate` and one
`resolveConflictsCall`. -/
inductive CommitCall where
  | stagePhase
  | svnUpdate
  | resolveConflictsCall
  | svnCommit
  | svnCleanup
deriving DecidableEq, Repr

/-- Outcomes of the calls inside one `commit_with_conflict_resolution` run:
the status world `svn_add_and_delete` runs against, whether each call
succeeds, and the stdout of `svn commit` when it succeeds. -/
structure CommitOracle where
  stage : StatusWorld
  stageOk : Bool
  update1Ok : Bool
  resolve1Ok : Bool
  commitOk : Bool
  commitOutput : String
  update2Ok : Bool
  resolve2Ok : Bool
  cleanupOk : Bool

/-- One run of `commit_with_conflict_resolution`: stage, update and resolve,
commit, update and resolve again, cleanup — each failure propagating
immediately through the question-mark operator — and only then the check of
the commit output, `NoChanges` exactly when `commit_output.trim()` is empty.
The result is `none` when the run returned an error. -/
def commit_with_conflict_resolution (o : CommitOracle) :
    List CommitCall × Option CommitResult :=
  if o.stageOk = false then ([CommitCall.stagePhase], none)
  else if o.update1Ok = false then
    ([CommitCall.stagePhase, CommitCall.svnUpdate], none)
  else if o.resolve1Ok = false then
    ([CommitCall.stagePhase, CommitCall.svnUpdate,
      CommitCall.resolveConflictsCall], none)
  else if o.commitOk = false then
    ([CommitCall.stagePhase, CommitCall.svnUpdate,
      CommitCall.resolveConflictsCall, CommitCall.svnCommit], none)
  else if o.update2Ok = false then
    ([CommitCall.stagePhase, CommitCall.svnUpdate,
      CommitCall.resolveConflictsCall, CommitCall.svnCommit,
      CommitCall.svnUpdate], none)
  else if o.resolve2Ok = false then
    ([CommitCall.stagePhase, CommitCall.svnUpdate,
      CommitCall.resolveConflictsCall, CommitCall.svnCommit,
      CommitCall.svnUpdate, CommitCall.resolveConflictsCall], none)
  else if o.cleanupOk = false then
    ([CommitCall.stagePhase, CommitCall.svnUpdate,
      CommitCall.resolveConflictsCall, CommitCall.svnCommit,
      CommitCall.svnUpdate, CommitCall.resolveConflictsCall,
      CommitCall.svnCleanup], none)
  else
    ([CommitCall.stagePhase, CommitCall.svnUpdate,
      CommitCall.resolveConflictsCall, CommitCall.svnCommit,
      CommitCall.svnUpdate, CommitCall.resolveConflictsCall,
      CommitCall.svnCleanup],
      some (if trimIsEmpty o.commitOutput then CommitResult.NoChanges
        else CommitResult.Success))

/-- A status world with no entries at all: nothing is staged. -/
def emptyWorld : StatusWorld where
  entries := []
  ign := fun _ _ => false
  walk := fun _ => []

/-- An invocation whose staging phase fails; every later call would
succeed. -/
def c4FailOracle : CommitOracle where
  stage := emptyWorld
  stageOk := false
  update1Ok := true
  resolve1Ok := true
  commitOk := true
  commitOutput := "Committed revision 7."
  update2Ok := true
  resolve2Ok := true
  cleanupOk := true

/-- C4 is refuted as stated: an invocation whose staging phase fails returns
the error without the housekeeping call — `svn cleanup` runs only after
every earlier phase has succeeded, not regardless of outcome. -/
theorem c4_cleanup_skipped_refuted :
    (commit_with_conflict_resolution c4FailOracle).2 = none ∧
    CommitCall.svnCleanup ∉ (commit_with_conflict_resolution c4FailOracle).1 := by
  refine ⟨rfl, by decide⟩

/-- C4 (amended): the housekeeping call is performed exactly when the
staging, both reconcile rounds, the conflict resolutions and the commit all
succeed; any earlier failure returns without it. -/
theorem c4_cleanup_only_after_success (o : CommitOracle) :
    CommitCall.svnCleanup ∈ (commit_with_conflict_resolution o).1 ↔
      (o.stageOk = true ∧ o.update1Ok = true ∧ o.resolve1Ok = true ∧
        o.commitOk = true ∧ o.update2Ok = true ∧ o.resolve2Ok = true) := by
  obtain ⟨st, a, b, c, d, out, e, f, g⟩ := o
  cases a <;> cases b <;> cases c <;> cases d <;> cases e <;> cases f <;>
    cases g <;> simp [commit_with_conflict_resolution]

/-- An invocation in which nothing is staged (no status entries) and every
call succeeds; an empty change set makes the backend print nothing. -/
def c6Oracle : CommitOracle where
  stage := emptyWorld
  stageOk := true
  update1Ok := true
  resolve1Ok := true
  commitOk := true
  commitOutput := ""
  update2Ok := true
  resolve2Ok := true
  cleanupOk := true

/-- C6 is refuted as stated: with no status entries the staged change set
after the staging phase is empty and the run returns `NoChanges` — yet the
commit transmission is still performed (`svn commit` is invoked
unconditionally once the earlier phases succeed). -/
theorem c6_empty_stage_still_commits_refuted :
    stagedAdds c6Oracle.stage = [] ∧ stagedDels c6Oracle.stage = [] ∧
    (commit_with_conflict_resolution c6Oracle).2 =
      some CommitResult.NoChanges ∧
    CommitCall.svnCommit ∈ (commit_with_conflict_resolution c6Oracle).1 := by
  refine ⟨rfl, rfl, by decide, by decide⟩

/-- C6 (amended): once the staging and the first reconcile round succeed the
backend commit operation is always invoked, whatever was staged; the run
returns `NoChanges` exactly when it completes with a trimmed-empty commit
output (an empty change set is reported by empty output, so it yields
`NoChanges`, not an error), and `Success` exactly when it completes with
nonempty trimmed output. -/
theorem c6_commit_result_spec (o : CommitOracle) (h1 : o.stageOk = true)
    (h2 : o.update1Ok = true) (h3 : o.resolve1Ok = true) :
    CommitCall.svnCommit ∈ (commit_with_conflict_resolution o).1 ∧
    ((commit_with_conflict_resolution o).2 = some CommitResult.NoChanges ↔
      (o.commitOk = true ∧ o.update2Ok = true ∧ o.resolve2Ok = true ∧
        o.cleanupOk = true ∧ trimIsEmpty o.commitOutput = true)) ∧
    ((commit_with_conflict_resolution o).2 = some CommitResult.Success ↔
      (o.commitOk = true ∧ o.update2Ok = true ∧ o.resolve2Ok = true ∧
        o.cleanupOk = true ∧ trimIsEmpty o.commitOutput = false)) := by
  obtain ⟨st, a, b, c, d, out, e, f, g⟩ := o
  simp only at h1 h2 h3
  subst h1; subst h2; subst h3
  cases d <;> cases e <;> cases f <;> cases g <;>
    cases h : trimIsEmpty out <;>
    simp [commit_with_conflict_resolution, h]

/-- Witness for the amended C6: the all-successful empty-change-set run
transmits a commit and reports `NoChanges`. -/
theorem c6_commit_result_spec_witness :
    CommitCall.svnCommit ∈ (commit_with_conflict_resolution c6Oracle).1 ∧
    (commit_with_conflict_resolution c6Oracle).2 =
      some CommitResult.NoChanges :=
  ⟨(c6_commit_result_spec c6Oracle rfl rfl rfl).1,
    (c6_commit_result_spec c6Oracle rfl rfl rfl).2.1.mpr
      ⟨rfl, rfl, rfl, rfl, by decide⟩⟩

/-! ## Repository prune swap (`force_delete`, `src/commands/workspace.rs`) -/

/-- What content a path holds during the atomic swap of `force_delete`. -/
inductive RepoContent where
  | original
  | filtered
deriving DecidableEq, Repr

/-- The three locations the swap touches: the repository path, the backup
path, the temporary path. -/
structure SwapState where
  atOriginal : Option RepoContent
  atBackup : Option RepoContent
  atTemp : Option RepoContent
deriving DecidableEq, Repr

/-- The errors steps 4 and 5 of `force_delete` can surface: the import stage
exiting unsuccessfully (a `Validation` error), and the I/O errors of the
stale-backup removal, the two renames, and the compensating restore. -/
inductive SwapErr where
  | loadFailed
  | removeBackup
  | renameToBackup
  | renameTemp
  | restoreFailed
deriving DecidableEq, Repr

/-- Outcomes of the fallible filesystem steps of the swap. -/
structure SwapOracle where
  loadOk : Bool
  removeBackupOk : Bool
  rename1Ok : Bool
  rename2Ok : Bool
  restoreOk : Bool
deriving DecidableEq, Repr

/-- Steps 4–5 of `force_delete`, starting from the state in which the
temporary repository holds the filtered content and the import is running:
wait for the import (a non-zero exit returns with nothing renamed and the
temporary repository abandoned in place); remove a stale backup when one
exists; rename the original to the backup path; rename the temporary
repository into the original path; if that second rename fails, immediately
rename the backup back and surface the second rename's error — when the
restore itself fails, its error is surfaced instead and the half-swapped
state is left as is. Each rename is atomic: on failure the state is
unchanged. -/
def force_delete_swap (o : SwapOracle) (s : SwapState) :
    SwapState × Option SwapErr :=
  if o.loadOk = false then (s, some SwapErr.loadFailed)
  else if s.atBackup.isSome = true ∧ o.removeBackupOk = false then
    (s, some SwapErr.removeBackup)
  else
    let s1 : SwapState := { s with atBackup := none }
    if o.rename1Ok = false then (s1, some SwapErr.renameToBackup)
    else
      let s2 : SwapState :=
        { atOriginal := none, atBackup := s1.atOriginal, atTemp := s1.atTemp }
      if o.rename2Ok = true then
        ({ atOriginal := s2.atTemp, atBackup := s2.atBackup, atTemp := none },
          none)
      else if o.restoreOk = true then
        ({ atOriginal := s2.atBackup, atBackup := none, atTemp := s2.atTemp },
          some SwapErr.renameTemp)
      else (s2, some SwapErr.restoreFailed)

/-- C7: from any state with the original repository at its path, (1) an
unsuccessful exit of the import stage returns the load error with the state
untouched — no rename has occurred and the temporary repository is abandoned
where it was; (2) when the second rename fails after the first succeeded and
the compensating rename goes through, the original content is back at the
original path and the error surfaced to the caller is the second rename's. -/
theorem c7_swap_rollback (o : SwapOracle) (s : SwapState)
    (hs : s.atOriginal = some RepoContent.original)
    (hrb : s.atBackup = none ∨ o.removeBackupOk = true) :
    (o.loadOk = false → force_delete_swap o s = (s, some SwapErr.loadFailed)) ∧
    (o.loadOk = true → o.rename1Ok = true → o.rename2Ok = false →
      o.restoreOk = true →
      (force_delete_swap o s).1.atOriginal = some RepoContent.original ∧
      (force_delete_swap o s).2 = some SwapErr.renameTemp) := by
  refine ⟨fun h => by simp [force_delete_swap, h], fun h1 h2 h3 h4 => ?_⟩
  have hcond : ¬(s.atBackup.isSome = true ∧ o.removeBackupOk = false) := by
    rcases hrb with h | h <;> simp [h]
  simp [force_delete_swap, h1, h2, h3, h4, hcond, hs]

/-- The pre-swap state of a prune run: original repository in place, filtered
repository at the temporary path, no stale backup. -/
def c7State : SwapState where
  atOriginal := some RepoContent.original
  atBackup := none
  atTemp := some RepoContent.filtered

/-- A run whose second rename fails and whose compensating restore
succeeds. -/
def c7Oracle : SwapOracle where
  loadOk := true
  removeBackupOk := true
  rename1Ok := true
  rename2Ok := false
  restoreOk := true

/-- Witness for C7: on the concrete failed-swap run the original content is
restored and the rename error is surfaced. -/
theorem c7_swap_rollback_witness :
    (force_delete_swap c7Oracle c7State).1.atOriginal =
      some RepoContent.original ∧
    (force_delete_swap c7Oracle c7State).2 = some SwapErr.renameTemp :=
  (c7_swap_rollback c7Oracle c7State rfl (Or.inl rfl)).2 rfl rfl rfl rfl

end WsTool
